import Mathlib

/-!
Verification of the VRPTW simulated-annealing notebook.

Shallow embedding of the functions of the notebook:
* `is_feasible`       — the standalone feasibility evaluator;
* `calculate_cost`    — the cost evaluator (the Python float infinity is `none`);
* `generate_new_solution` — the neighbourhood move (Python `ValueError` is `none`);
* `saStep` / `saLoop` / `simulated_annealing` — the annealing engine.

Machine floats appear in the source only as the cost values (which are in fact
integers plus the `inf` sentinel, modelled exactly by `Option ℤ`), the
temperature (exact decimal arithmetic, modelled by `ℚ`), and the Metropolis
draw `u < exp((best - cost)/T)`, whose finite-argument case is modelled by an
abstract oracle `expF` and whose special values follow IEEE semantics exactly
(`exp(-inf) = 0.0`, comparisons against `nan` are false).
-/

/-- Problem instance: cost/time matrices, demands (defined only on customers,
mirroring the Python dict `di`), capacity, time windows.  `numNodes` plays the
role of `len(b)` and `numCustomers` of `len(di)` in the source. -/
structure Instance where
  numVehicles : Nat
  cij : Nat → Nat → ℤ
  tij : Nat → Nat → ℤ
  di : Nat → Option ℤ
  q : ℤ
  a : Nat → ℤ
  b : Nat → ℤ
  numNodes : Nat
  numCustomers : Nat

/-- Consecutive pairs of a route, mirroring
`for idx in range(len(route) - 1): i, j = route[idx], route[idx + 1]`. -/
def pairsOf (route : List Nat) : List (Nat × Nat) :=
  route.zip route.tail

/-- Per-route traversal of `is_feasible`: for each arc `(i, j)` the capacity
check (`load += di[j]; load > q`) runs first when `j` is a customer, then the
time-window propagation `arrival = max(arrival + tij[i,j], a[j]); arrival > b[j]`. -/
def feasPairs (inst : Instance) : List (Nat × Nat) → ℤ → ℤ → Bool
  | [], _, _ => true
  | (i, j) :: rest, load, arrival =>
    match inst.di j with
    | some d =>
      let load2 := load + d
      if load2 > inst.q then false
      else
        let arrival2 := max (arrival + inst.tij i j) (inst.a j)
        if arrival2 > inst.b j then false
        else feasPairs inst rest load2 arrival2
    | none =>
      let arrival2 := max (arrival + inst.tij i j) (inst.a j)
      if arrival2 > inst.b j then false
      else feasPairs inst rest load arrival2

/-- One route of `is_feasible`: the pair loop from `load = 0, arrival = 0`,
then the endpoint check `route[0] != 0 or route[-1] != len(b) - 1`.
(Python raises `IndexError` on an empty route; the empty case is mapped to
`false` here and no claim evaluates `is_feasible` on an empty route.) -/
def routeOK (inst : Instance) (route : List Nat) : Bool :=
  feasPairs inst (pairsOf route) 0 0 &&
    match route.head?, route.getLast? with
    | some h, some l => decide (h = 0) && decide (l = inst.numNodes - 1)
    | _, _ => false

/-- The Python set `customers_visited`, built by
`for route in routes: for i in route: if i != 0 and i != len(b) - 1: add(i)`;
modelled as a duplicate-free list (insertion skipped when already present). -/
def customersVisited (inst : Instance) (routes : List (List Nat)) : List Nat :=
  routes.foldl
    (fun s route =>
      route.foldl
        (fun s2 n => if n ≠ 0 ∧ n ≠ inst.numNodes - 1 ∧ n ∉ s2 then n :: s2 else s2)
        s)
    []

/-- `is_feasible(routes, tij, di, q, a, b, K)`: the coverage cardinality test
`len(customers_visited) != len(di)` followed by the per-route checks. -/
def is_feasible (inst : Instance) (routes : List (List Nat)) : Bool :=
  decide ((customersVisited inst routes).length = inst.numCustomers) &&
    routes.all (routeOK inst)

/-- Per-route traversal of `calculate_cost`: accumulates `cij[i,j]` into the
running total, then checks the time window, then (for customers) capacity.
Returns `none` for the float infinity.  The write-only arc ledger `x[k, i, j] = 1`
has no effect on the returned value and is omitted. -/
def costPairs (inst : Instance) : List (Nat × Nat) → ℤ → ℤ → ℤ → Option ℤ
  | [], total, _, _ => some total
  | (i, j) :: rest, total, load, arrival =>
    let total2 := total + inst.cij i j
    let arrival2 := max (arrival + inst.tij i j) (inst.a j)
    if arrival2 > inst.b j then none
    else
      match inst.di j with
      | some d =>
        let load2 := load + d
        if load2 > inst.q then none
        else costPairs inst rest total2 load2 arrival2
      | none => costPairs inst rest total2 load arrival2

/-- The outer loop of `calculate_cost` over routes: the total persists across
routes, `load` and `arrival_time` reset to `0` for each route, and the first
float infinity short-circuits the whole evaluation. -/
def costRoutes (inst : Instance) : List (List Nat) → ℤ → Option ℤ
  | [], total => some total
  | route :: rest, total =>
    match costPairs inst (pairsOf route) total 0 0 with
    | none => none
    | some t => costRoutes inst rest t

/-- `calculate_cost(x, cij, tij, a, b, q, di, routes)`. -/
def calculate_cost (inst : Instance) (routes : List (List Nat)) : Option ℤ :=
  costRoutes inst routes 0

/-- Python float `<` restricted to the values produced by `calculate_cost`:
finite integers and `inf` (`none`).  `inf < x` is always false, and a finite
value is `< inf`. -/
def costLt : Option ℤ → Option ℤ → Bool
  | some x, some y => decide (x < y)
  | some _, none => true
  | none, _ => false

/-- Python float `<=` on the same value space (`none` is `+inf`). -/
def costLe : Option ℤ → Option ℤ → Bool
  | some x, some y => decide (x ≤ y)
  | _, none => true
  | none, some _ => false

/-- The reference instance produced by `generate_vrptw_parameters(2, 3, seed=30)`
and recorded in the notebook: two vehicles, customers `{1, 2, 3}`, depots `0`
and `4`. -/
def refInstance : Instance where
  numVehicles := 2
  cij := fun i j =>
    match i, j with
    | 0, 1 => 44 | 0, 2 => 28 | 0, 3 => 49 | 0, 4 => 11
    | 1, 0 => 49 | 1, 2 => 23 | 1, 3 => 26 | 1, 4 => 13
    | 2, 0 => 35 | 2, 1 => 34 | 2, 3 => 18 | 2, 4 => 15
    | 3, 0 => 39 | 3, 1 => 10 | 3, 2 => 43 | 3, 4 => 25
    | 4, 0 => 11 | 4, 1 => 14 | 4, 2 => 20 | 4, 3 => 48
    | _, _ => 0
  tij := fun i j =>
    match i, j with
    | 0, 1 => 21 | 0, 2 => 17 | 0, 3 => 25 | 0, 4 => 16
    | 1, 0 => 22 | 1, 2 => 7 | 1, 3 => 17 | 1, 4 => 5
    | 2, 0 => 12 | 2, 1 => 30 | 2, 3 => 23 | 2, 4 => 26
    | 3, 0 => 13 | 3, 1 => 29 | 3, 2 => 18 | 3, 4 => 23
    | 4, 0 => 8 | 4, 1 => 26 | 4, 2 => 13 | 4, 3 => 25
    | _, _ => 0
  di := fun i =>
    match i with
    | 1 => some 13 | 2 => some 6 | 3 => some 14 | _ => none
  q := 20
  a := fun i =>
    match i with
    | 1 => 39 | 2 => 16 | 3 => 39 | _ => 0
  b := fun i =>
    match i with
    | 0 => 100 | 1 => 72 | 2 => 27 | 3 => 48 | 4 => 100 | _ => 0
  numNodes := 5
  numCustomers := 3

/-- `exact_routes = [[0, 1, 4], [0, 2, 3, 4]]`. -/
def exact_routes : List (List Nat) := [[0, 1, 4], [0, 2, 3, 4]]

/-- `infeasible_routes = [[0, 1, 4], [0, 2, 3]]`. -/
def infeasible_routes : List (List Nat) := [[0, 1, 4], [0, 2, 3]]

/-- `feasible_routes = [[0, 3, 4], [0, 2, 1, 4]]` — the global the annealing
engine actually starts from. -/
def feasible_routes : List (List Nat) := [[0, 3, 4], [0, 2, 1, 4]]

/-- `generate_new_solution(routes)` with the randomness made explicit:
`v1, v2` are the two distinct vehicles drawn by `random.sample`, and `i, j`
the indices drawn by `random.randint(1, len(route) - 2)`.  The guard
`if new_routes[vehicle1] and new_routes[vehicle2]` is Python truthiness, i.e.
non-emptiness; when it passes but a selected route has fewer than three nodes,
`randint` is called on an empty range and raises `ValueError`, modelled as
`none`.  In the swap the right-hand pair is evaluated before either
assignment, and `v1 ≠ v2` (guaranteed by `random.sample`) makes the two
element writes land in distinct lists. -/
def generate_new_solution (routes : List (List Nat)) (v1 v2 i j : Nat) :
    Option (List (List Nat)) :=
  if (routes.getD v1 []).isEmpty || (routes.getD v2 []).isEmpty then
    some routes
  else if (routes.getD v1 []).length < 3 || (routes.getD v2 []).length < 3 then
    none
  else
    let r1 := routes.getD v1 []
    let r2 := routes.getD v2 []
    some ((routes.set v1 (r1.set i (r2.getD j 0))).set v2 (r2.set j (r1.getD i 0)))

/-- Argument of `math.exp` in the acceptance rule, extended with the IEEE
special values that `best_cost - cost` can take when either side is
the float infinity. -/
inductive ExpArg where
  | fin : ℚ → ExpArg
  | negInf : ExpArg
  | posInf : ExpArg
  | nan : ExpArg

/-- `best_cost - cost` as a float: `finite - inf = -inf`, `inf - finite = inf`,
`inf - inf = nan`. -/
def subCost : Option ℤ → Option ℤ → ExpArg
  | some m, some n => .fin ((m - n : ℤ) : ℚ)
  | some _, none => .negInf
  | none, some _ => .posInf
  | none, none => .nan

/-- `random.uniform(0, 1) < math.exp(arg / temperature)`.  The oracle `expF`
stands for the strictly positive finite float `math.exp` returns on a finite
argument; the special cases are exact: `math.exp(-inf) = 0.0` so the test is
`u < 0`, `math.exp(inf) = inf` so the test is true, and any comparison with
`nan` is false. -/
def uLtExp (expF : ℚ → ℚ) (u : ℚ) (d : ExpArg) (T : ℚ) : Bool :=
  match d with
  | .fin x => decide (u < expF (x / T))
  | .negInf => decide (u < 0)
  | .posInf => true
  | .nan => false

/-- Persistent state of the engine: `current_routes`, `best_routes`,
`best_cost`, `temperature`. -/
structure SAState where
  current : List (List Nat)
  best : List (List Nat)
  bestCost : Option ℤ
  temp : ℚ
deriving DecidableEq

/-- Randomness consumed by one loop iteration, in source order: the two
vehicles and two positions of the move, then the uniform acceptance draw. -/
structure IterIn where
  v1 : Nat
  v2 : Nat
  i : Nat
  j : Nat
  u : ℚ

/-- One iteration of the `while` body of `simulated_annealing`: propose,
score, Metropolis-accept (`cost < best_cost or u < exp((best_cost - cost) /
temperature)`), update `best` on strict improvement, cool by `0.99`.
`none` propagates a `ValueError` raised inside `generate_new_solution`. -/
def saStep (inst : Instance) (expF : ℚ → ℚ) (it : IterIn) (st : SAState) :
    Option SAState :=
  match generate_new_solution st.current it.v1 it.v2 it.i it.j with
  | none => none
  | some new_routes =>
    let cost := calculate_cost inst new_routes
    let accept := costLt cost st.bestCost ||
      uLtExp expF it.u (subCost st.bestCost cost) st.temp
    let st2 :=
      if accept then
        if costLt cost st.bestCost then
          { current := new_routes, best := new_routes, bestCost := cost,
            temp := st.temp }
        else { st with current := new_routes }
      else st
    some { st2 with temp := st2.temp * (99 / 100) }

/-- `while temperature > 1:` — the loop, fed by a finite stream of random
draws (quantified over in the theorems; the loop provably consumes only a
bounded prefix). -/
def saLoop (inst : Instance) (expF : ℚ → ℚ) :
    List IterIn → SAState → Option SAState
  | [], st => some st
  | it :: rest, st =>
    if st.temp > 1 then
      match saStep inst expF it st with
      | none => none
      | some st2 => saLoop inst expF rest st2
    else some st

/-- The initialisation of `simulated_annealing`: the source sets
`current_routes = feasible_routes` — the module-level global — so the
`initial_routes` parameter is never read; `best_routes = current_routes`,
`best_cost = calculate_cost(...)`, `temperature = 1000` (hard-coded, as is
the cooling rate `0.99`). -/
def saInit (inst : Instance) (initial_routes : List (List Nat)) : SAState :=
  let _ := initial_routes
  { current := feasible_routes
    best := feasible_routes
    bestCost := calculate_cost inst feasible_routes
    temp := 1000 }

/-- `simulated_annealing(cij, tij, a, b, q, di, initial_routes, num_vehicles)`
returning `(best_routes, best_cost)`, with the random stream explicit. -/
def simulated_annealing (inst : Instance) (expF : ℚ → ℚ)
    (initial_routes : List (List Nat)) (its : List IterIn) :
    Option (List (List Nat) × Option ℤ) :=
  (saLoop inst expF its (saInit inst initial_routes)).map
    fun st => (st.best, st.bestCost)

/-- A solution in which customer `1` appears in two different routes while
every customer is still visited at least once. -/
def dupRoutes : List (List Nat) := [[0, 1, 4], [0, 2, 3, 4], [0, 1, 4]]

/-- A route with fewer than two nodes contributes no consecutive pairs. -/
theorem pairsOf_eq_nil_of_short (r : List Nat) (h : r.length < 2) :
    pairsOf r = [] := by
  match r with
  | [] => rfl
  | [x] => rfl
  | x :: y :: t => exact absurd h (by simp)

/-- When every route is shorter than two nodes, the cost loop returns its
accumulator unchanged. -/
theorem costRoutes_of_short (inst : Instance) :
    ∀ (routes : List (List Nat)) (total : ℤ),
      (∀ r ∈ routes, r.length < 2) → costRoutes inst routes total = some total := by
  intro routes
  induction routes with
  | nil => intro total _; rfl
  | cons r rest ih =>
    intro total h
    have hr : pairsOf r = [] :=
      pairsOf_eq_nil_of_short r (h r (List.mem_cons_self r rest))
    have hrest : ∀ s ∈ rest, s.length < 2 := fun s hs => h s (List.mem_cons_of_mem r hs)
    simp only [costRoutes, hr, costPairs]
    exact ih total hrest

/-- C10: on every instance, `calculate_cost` of a solution whose routes all
have fewer than two nodes (including the all-empty solution) returns the
finite cost `0`, not the infeasible sentinel: the per-route pair loop is
empty, so no capacity or time-window check is ever reached. -/
theorem C10_short_routes_cost_zero (inst : Instance) (routes : List (List Nat))
    (h : ∀ r ∈ routes, r.length < 2) :
    calculate_cost inst routes = some 0 :=
  costRoutes_of_short inst routes 0 h

/-- Witness for C10: on the reference instance, the solution `[[], [0]]`
(one empty route, one single-node route) evaluates to cost `0`. -/
theorem C10_short_routes_cost_zero_witness :
    calculate_cost refInstance [[], [0]] = some 0 :=
  C10_short_routes_cost_zero refInstance [[], [0]] (by decide)

/-- C9: on the reference instance — whose cost matrix has the five literal
entries below and whose time windows and travel times are those of the worked
example — `calculate_cost` of `[[0, 1, 4], [0, 2, 3, 4]]` is exactly
`44 + 13 + 28 + 18 + 25 = 128`. -/
theorem C9_scenario_B_cost_128 :
    refInstance.cij 0 1 = 44 ∧ refInstance.cij 1 4 = 13 ∧
    refInstance.cij 0 2 = 28 ∧ refInstance.cij 2 3 = 18 ∧
    refInstance.cij 3 4 = 25 ∧
    calculate_cost refInstance exact_routes = some 128 := by
  decide

/-- C1 counterexample: `exact_routes` is feasible with cost `128`, while
`infeasible_routes` fails `is_feasible` (its second route never returns to the
depot) yet receives the smaller finite cost `103`, so
`evaluate(S) < evaluate(I)` fails: `calculate_cost` never checks coverage or
endpoints, so its inline check is not equivalent to `is_feasible`. -/
theorem C1_sentinel_dominance_counterexample :
    is_feasible refInstance exact_routes = true ∧
    is_feasible refInstance infeasible_routes = false ∧
    calculate_cost refInstance exact_routes = some 128 ∧
    calculate_cost refInstance infeasible_routes = some 103 ∧
    costLt (calculate_cost refInstance exact_routes)
      (calculate_cost refInstance infeasible_routes) = false := by
  decide

/-- C2: the engine ignores its `initial_routes` argument.  Called with the
seed `exact_routes` (cost `128`) and an empty iteration stream, it returns
the global `feasible_routes` with cost `149`: `current` and `best` are seeded
from the module-level global, not from the caller-supplied argument. -/
theorem C2_seed_argument_ignored :
    simulated_annealing refInstance (fun _ => 0) exact_routes [] =
      some (feasible_routes, some 149) ∧
    feasible_routes ≠ exact_routes ∧
    calculate_cost refInstance exact_routes = some 128 := by
  decide

/-- C3: a solution in which customer `1` appears in two routes (every
customer still visited at least once) passes `is_feasible`: the coverage
check collects visited customers into a set and only compares cardinalities,
so duplicates are not detected, contradicting the comment
`Each customer is visited exactly once` above that check. -/
theorem C3_duplicate_customer_accepted :
    is_feasible refInstance dupRoutes = true ∧
    (dupRoutes.map fun r => r.count 1).sum = 2 := by
  decide

/-- Reflexivity of the float `<=` on cost values. -/
theorem costLe_refl (x : Option ℤ) : costLe x x = true := by
  cases x <;> simp [costLe]

/-- Strict float `<` implies `<=` on cost values. -/
theorem costLe_of_costLt (x y : Option ℤ) (h : costLt x y = true) :
    costLe x y = true := by
  cases x <;> cases y <;> simp_all [costLt, costLe] <;> omega

/-- Transitivity of the float `<=` on cost values. -/
theorem costLe_trans (x y z : Option ℤ) (hxy : costLe x y = true)
    (hyz : costLe y z = true) : costLe x z = true := by
  cases x <;> cases y <;> cases z <;> simp_all [costLe] <;> omega

/-- One annealing iteration never increases `best_cost`: the tracked best is
replaced only by a strictly cheaper candidate. -/
theorem saStep_bestCost_le (inst : Instance) (expF : ℚ → ℚ) (it : IterIn)
    (st st' : SAState) (h : saStep inst expF it st = some st') :
    costLe st'.bestCost st.bestCost = true := by
  unfold saStep at h
  cases hgen : generate_new_solution st.current it.v1 it.v2 it.i it.j with
  | none => rw [hgen] at h; exact absurd h (by simp)
  | some nr =>
    rw [hgen] at h
    injection h with h
    subst h
    by_cases hlt : costLt (calculate_cost inst nr) st.bestCost = true
    · simp only [hlt, Bool.true_or, if_true, if_pos]
      exact costLe_of_costLt _ _ hlt
    · rw [Bool.not_eq_true] at hlt
      simp only [hlt, Bool.false_or]
      split
      · exact costLe_refl _
      · exact costLe_refl _

/-- Each iteration multiplies the temperature by the hard-coded cooling rate
`0.99`, in every acceptance branch. -/
theorem saStep_temp (inst : Instance) (expF : ℚ → ℚ) (it : IterIn)
    (st st' : SAState) (h : saStep inst expF it st = some st') :
    st'.temp = st.temp * (99 / 100) := by
  unfold saStep at h
  cases hgen : generate_new_solution st.current it.v1 it.v2 it.i it.j with
  | none => rw [hgen] at h; exact absurd h (by simp)
  | some nr =>
    rw [hgen] at h
    injection h with h
    subst h
    split
    · split <;> rfl
    · rfl

/-- C6: over any iteration sequence of the annealing loop, `best_cost` is
non-increasing, so the returned `best_cost` is never worse than the cost of
the solution the engine started from (the initial `best_cost`, which the
source sets to `calculate_cost` of the initial `best`). -/
theorem C6_best_cost_monotone (inst : Instance) (expF : ℚ → ℚ)
    (its : List IterIn) (st st' : SAState)
    (h : saLoop inst expF its st = some st') :
    costLe st'.bestCost st.bestCost = true ∧
    (st.bestCost = calculate_cost inst st.best →
      costLe st'.bestCost (calculate_cost inst st.best) = true) := by
  have main : ∀ (l : List IterIn) (s s' : SAState),
      saLoop inst expF l s = some s' → costLe s'.bestCost s.bestCost = true := by
    intro l
    induction l with
    | nil =>
      intro s s' hl
      injection hl with hl
      subst hl
      exact costLe_refl _
    | cons it rest ih =>
      intro s s' hl
      simp only [saLoop] at hl
      by_cases ht : s.temp > 1
      · rw [if_pos ht] at hl
        cases hstep : saStep inst expF it s with
        | none => rw [hstep] at hl; exact absurd hl (by simp)
        | some s2 =>
          rw [hstep] at hl
          exact costLe_trans _ _ _ (ih s2 s' hl) (saStep_bestCost_le inst expF it s s2 hstep)
      · rw [if_neg ht] at hl
        injection hl with hl
        subst hl
        exact costLe_refl _
  refine ⟨main its st st' h, fun hb => ?_⟩
  rw [← hb]
  exact main its st st' h

/-- Witness for C6: running the loop on the initial state of the engine with an
empty draw stream leaves `best_cost`, and the bound holds. -/
theorem C6_best_cost_monotone_witness :
    costLe (saInit refInstance exact_routes).bestCost
        (saInit refInstance exact_routes).bestCost = true ∧
    ((saInit refInstance exact_routes).bestCost =
        calculate_cost refInstance (saInit refInstance exact_routes).best →
      costLe (saInit refInstance exact_routes).bestCost
        (calculate_cost refInstance (saInit refInstance exact_routes).best) = true) :=
  C6_best_cost_monotone refInstance (fun _ => 0) []
    (saInit refInstance exact_routes) (saInit refInstance exact_routes) rfl

/-- C8: when the tracked `best_cost` is finite and the proposed candidate
evaluates to the infeasible sentinel, the iteration changes nothing but the
temperature: the strict-improvement test `inf < best` is false and the
Metropolis draw compares `u >= 0` against `exp(-inf) = 0.0`, so the candidate
is never accepted as `current`. -/
theorem C8_infeasible_candidate_rejected (inst : Instance) (expF : ℚ → ℚ)
    (it : IterIn) (st : SAState) (b : ℤ) (nr : List (List Nat))
    (hb : st.bestCost = some b) (hu : 0 ≤ it.u)
    (hgen : generate_new_solution st.current it.v1 it.v2 it.i it.j = some nr)
    (hcost : calculate_cost inst nr = none) :
    saStep inst expF it st = some { st with temp := st.temp * (99 / 100) } := by
  unfold saStep
  rw [hgen]
  simp [hcost, hb, costLt, subCost, uLtExp, not_lt.mpr hu]

/-- Witness for C8: from `best = current = exact_routes` (cost `128`), the
swap at interior positions `1`/`1` proposes `[[0, 2, 4], [0, 1, 3, 4]]`,
which violates the time window of customer 3 and costs `inf`; the state is
unchanged except for cooling. -/
theorem C8_infeasible_candidate_rejected_witness :
    saStep refInstance (fun _ => 0) ⟨0, 1, 1, 1, 1 / 2⟩
        ⟨exact_routes, exact_routes, some 128, 1000⟩ =
      some ⟨exact_routes, exact_routes, some 128, 1000 * (99 / 100)⟩ :=
  C8_infeasible_candidate_rejected refInstance (fun _ => 0)
    ⟨0, 1, 1, 1, 1 / 2⟩ ⟨exact_routes, exact_routes, some 128, 1000⟩ 128
    [[0, 2, 4], [0, 1, 3, 4]] rfl (by norm_num) (by decide) (by decide)

/-- When the current temperature already satisfies
`temp * 0.99^n <= 1`, the loop consumes at most `n` of its random draws:
every draw beyond the `n`-th is irrelevant. -/
theorem saLoop_take (inst : Instance) (expF : ℚ → ℚ) :
    ∀ (n : Nat) (its : List IterIn) (st : SAState),
      st.temp * (99 / 100 : ℚ) ^ n ≤ 1 →
      saLoop inst expF its st = saLoop inst expF (its.take n) st := by
  intro n
  induction n with
  | zero =>
    intro its st h
    rw [pow_zero, mul_one] at h
    cases its with
    | nil => rfl
    | cons it rest =>
      simp only [List.take_zero, saLoop]
      rw [if_neg (not_lt.mpr h)]
  | succ n ih =>
    intro its st h
    cases its with
    | nil => rfl
    | cons it rest =>
      by_cases ht : st.temp > 1
      · simp only [saLoop, List.take_succ_cons, if_pos ht]
        cases hstep : saStep inst expF it st with
        | none => rfl
        | some st2 =>
          apply ih
          rw [saStep_temp inst expF it st st2 hstep, mul_assoc]
          rw [pow_succ'] at h
          rw [mul_comm ((99 : ℚ) / 100) ((99 / 100 : ℚ) ^ n)] at h
          rw [← mul_assoc] at h
          rw [mul_comm (st.temp * (99 / 100 : ℚ) ^ n) ((99 : ℚ) / 100)] at h
          rw [← mul_assoc] at h
          rw [mul_comm ((99 : ℚ) / 100) st.temp] at h
          rw [mul_assoc] at h
          exact h
      · simp only [saLoop, List.take_succ_cons, if_neg ht]

set_option maxRecDepth 4000 in
/-- Arithmetic fact behind termination: after 688 cooling steps the
temperature `1000 * 0.99^688` has dropped to (just below) the floor `1`. -/
theorem cooling_bound : (1000 : ℚ) * (99 / 100) ^ 688 ≤ 1 := by
  have hnat : (1000 : ℕ) * 99 ^ 688 ≤ 100 ^ 688 := by decide
  rw [div_pow, ← mul_div_assoc, div_le_one (by positivity)]
  exact_mod_cast hnat

/-- C7: the annealing loop always terminates.  Starting from the hard-coded
`temperature = 1000`, each iteration multiplies the temperature by the
cooling rate `0.99 ∈ (0, 1)` and the loop exits as soon as
`temperature <= 1`, so at most 688 iterations ever run (draws beyond the
688-th are never consumed); the floor is the absolute constant `1`: any
state already at `temperature <= 1` exits immediately, whatever `T0` was. -/
theorem C7_loop_terminates (inst : Instance) (expF : ℚ → ℚ)
    (its its2 : List IterIn) (st st2 : SAState)
    (h : st.temp = 1000) (h2 : st2.temp ≤ 1) :
    saLoop inst expF its st = saLoop inst expF (its.take 688) st ∧
    saLoop inst expF its2 st2 = some st2 := by
  constructor
  · apply saLoop_take
    rw [h]
    exact cooling_bound
  · cases its2 with
    | nil => rfl
    | cons it rest =>
      simp only [saLoop]
      rw [if_neg (not_lt.mpr h2)]

/-- Witness for C7 at the initial state of the engine (temperature `1000`) and a
state already at the floor. -/
theorem C7_loop_terminates_witness :
    saLoop refInstance (fun _ => 0) [] (saInit refInstance exact_routes) =
      saLoop refInstance (fun _ => 0) (List.take 688 [])
        (saInit refInstance exact_routes) ∧
    saLoop refInstance (fun _ => 0) [] ⟨[], [], none, 1⟩ =
      some ⟨[], [], none, 1⟩ :=
  C7_loop_terminates refInstance (fun _ => 0) [] [] (saInit refInstance exact_routes)
    ⟨[], [], none, 1⟩ rfl (by norm_num)

/-- The two per-route traversals check the same capacity and time-window
conditions with the same `load`/`arrival` recurrences (only in opposite
order), so a route that passes the feasibility traversal gets a finite cost,
whatever the accumulated total. -/
theorem costPairs_isSome_of_feasPairs (inst : Instance) :
    ∀ (ps : List (Nat × Nat)) (total load arrival : ℤ),
      feasPairs inst ps load arrival = true →
      (costPairs inst ps total load arrival).isSome = true := by
  intro ps
  induction ps with
  | nil => intro total load arrival _; rfl
  | cons p rest ih =>
    obtain ⟨i, j⟩ := p
    intro total load arrival h
    simp only [feasPairs] at h
    simp only [costPairs]
    cases hdi : inst.di j with
    | some d =>
      rw [hdi] at h
      simp only [] at h
      split_ifs at h with hq htw
      rw [if_neg htw]
      simp only []
      rw [if_neg hq]
      exact ih _ _ _ h
    | none =>
      rw [hdi] at h
      simp only [] at h
      split_ifs at h with htw
      rw [if_neg htw]
      exact ih _ _ _ h

/-- A solution whose every route passes the feasibility traversal gets a
finite total cost. -/
theorem costRoutes_isSome_of_routeOK (inst : Instance) :
    ∀ (routes : List (List Nat)) (total : ℤ),
      routes.all (routeOK inst) = true →
      (costRoutes inst routes total).isSome = true := by
  intro routes
  induction routes with
  | nil => intro total _; rfl
  | cons r rest ih =>
    intro total h
    rw [List.all_cons, Bool.and_eq_true] at h
    obtain ⟨hr, hrest⟩ := h
    rw [routeOK, Bool.and_eq_true] at hr
    have hfeas := hr.1
    have hcost := costPairs_isSome_of_feasPairs inst (pairsOf r) total 0 0 hfeas
    simp only [costRoutes]
    obtain ⟨t, ht⟩ := Option.isSome_iff_exists.mp hcost
    rw [ht]
    exact ih t hrest

/-- A solution accepted by the standalone feasibility evaluator never
receives the infeasible sentinel from `calculate_cost`. -/
theorem calculate_cost_isSome_of_is_feasible (inst : Instance)
    (routes : List (List Nat)) (h : is_feasible inst routes = true) :
    (calculate_cost inst routes).isSome = true := by
  rw [is_feasible, Bool.and_eq_true] at h
  exact costRoutes_isSome_of_routeOK inst routes 0 h.2

/-- C1 amended: sentinel dominance holds only against the checks
`calculate_cost` actually performs.  For any feasible `S` and any `I` that
`calculate_cost` maps to the sentinel (a capacity or time-window violation
during traversal), `evaluate(S) < evaluate(I)`; solutions that are infeasible
only through coverage or endpoints receive a finite cost instead, and can
undercut feasible ones (see the counterexample). -/
theorem C1_sentinel_dominance_amended (inst : Instance)
    (S I : List (List Nat)) (hS : is_feasible inst S = true)
    (hI : calculate_cost inst I = none) :
    costLt (calculate_cost inst S) (calculate_cost inst I) = true := by
  obtain ⟨t, ht⟩ :=
    Option.isSome_iff_exists.mp (calculate_cost_isSome_of_is_feasible inst S hS)
  rw [ht, hI]
  rfl

/-- Witness for the amended C1: `exact_routes` is feasible and the
time-window-violating `[[0, 1, 3, 4]]` costs `inf`, so the dominance holds
there. -/
theorem C1_sentinel_dominance_amended_witness :
    costLt (calculate_cost refInstance exact_routes)
      (calculate_cost refInstance [[0, 1, 3, 4]]) = true :=
  C1_sentinel_dominance_amended refInstance exact_routes [[0, 1, 3, 4]]
    (by decide) (by decide)

/-- C4 counterexample: on the two-route solution `[[0, 4], [0, 2, 3, 4]]`,
selecting the first route — non-empty but with no interior node — makes
`random.randint(1, 0)` raise `ValueError` (modelled by `none`): the move does
not degenerate to an unchanged copy. -/
theorem C4_no_interior_raises :
    generate_new_solution [[0, 4], [0, 2, 3, 4]] 0 1 1 1 = none ∧
    generate_new_solution [[0, 4], [0, 2, 3, 4]] 0 1 1 1 ≠
      some [[0, 4], [0, 2, 3, 4]] := by
  decide

/-- C4 amended: the move degenerates to an unchanged copy only when one of
the two selected routes is the *empty list* (Python truthiness of the guard);
whenever both selected routes are non-empty, the call errors exactly when one
of them has fewer than three nodes, i.e. no interior node — `randint(1, 0)`
on an empty range. -/
theorem C4_amended_noop_only_for_empty (routes : List (List Nat))
    (v1 v2 i j : Nat) :
    ((generate_new_solution routes v1 v2 i j).isNone =
      (!(routes.getD v1 []).isEmpty && !(routes.getD v2 []).isEmpty &&
        (decide ((routes.getD v1 []).length < 3) ||
          decide ((routes.getD v2 []).length < 3)))) ∧
    ((routes.getD v1 []).isEmpty = true ∨ (routes.getD v2 []).isEmpty = true →
      generate_new_solution routes v1 v2 i j = some routes) := by
  constructor
  · unfold generate_new_solution
    by_cases hA : ((routes.getD v1 []).isEmpty || (routes.getD v2 []).isEmpty) = true
    · rw [if_pos hA]
      have hfalse : (!(routes.getD v1 []).isEmpty && !(routes.getD v2 []).isEmpty) = false := by
        rcases Bool.or_eq_true_iff.mp hA with h | h
        · rw [h]; rfl
        · rw [h, Bool.not_true, Bool.and_false]
      rw [hfalse, Bool.false_and]
      rfl
    · rw [if_neg hA]
      rw [Bool.or_eq_true_iff, not_or, Bool.not_eq_true, Bool.not_eq_true] at hA
      obtain ⟨he1, he2⟩ := hA
      rw [he1, he2, Bool.not_false, Bool.and_self, Bool.true_and]
      by_cases hB : (decide ((routes.getD v1 []).length < 3) ||
          decide ((routes.getD v2 []).length < 3)) = true
      · rw [if_pos hB, hB]
        rfl
      · rw [if_neg hB]
        rw [Bool.not_eq_true] at hB
        rw [hB]
        rfl
  · intro h
    have hc : ((routes.getD v1 []).isEmpty || (routes.getD v2 []).isEmpty) = true := by
      rcases h with h | h
      · rw [h, Bool.true_or]
      · rw [h, Bool.or_true]
    unfold generate_new_solution
    rw [if_pos hc]

/-- Witness for the amended C4: with an empty first route the move returns
the input unchanged. -/
theorem C4_amended_noop_only_for_empty_witness :
    generate_new_solution [[], [0, 2, 3, 4]] 0 1 1 1 = some [[], [0, 2, 3, 4]] :=
  (C4_amended_noop_only_for_empty [[], [0, 2, 3, 4]] 0 1 1 1).2 (Or.inl (by decide))

/-- C5: on a solution whose routes all have an interior node, with the two
selected vehicles distinct and in range and the two positions in the ranges
`randint(1, len - 2)` draws from, the move succeeds and: every other route is
untouched, both selected routes keep their first and last nodes (the depot
endpoints), and each selected route changes in at most the one drawn interior
position.  (The Lean embedding is pure, so the input solution itself is
trivially unmutated, mirroring the copy-then-modify in the source.) -/
theorem C5_depot_preservation (routes : List (List Nat)) (v1 v2 i j : Nat)
    (hv : v1 ≠ v2) (h1 : v1 < routes.length) (h2 : v2 < routes.length)
    (hall : ∀ r ∈ routes, 3 ≤ r.length)
    (hi1 : 1 ≤ i) (hi2 : i ≤ (routes.getD v1 []).length - 2)
    (hj1 : 1 ≤ j) (hj2 : j ≤ (routes.getD v2 []).length - 2) :
    ∃ new, generate_new_solution routes v1 v2 i j = some new ∧
      new.length = routes.length ∧
      (∀ k, k ≠ v1 → k ≠ v2 → new.getD k [] = routes.getD k []) ∧
      (new.getD v1 []).head? = (routes.getD v1 []).head? ∧
      (new.getD v1 []).getLast? = (routes.getD v1 []).getLast? ∧
      (new.getD v2 []).head? = (routes.getD v2 []).head? ∧
      (new.getD v2 []).getLast? = (routes.getD v2 []).getLast? ∧
      (∀ m, m ≠ i → (new.getD v1 []).getD m 0 = (routes.getD v1 []).getD m 0) ∧
      (∀ m, m ≠ j → (new.getD v2 []).getD m 0 = (routes.getD v2 []).getD m 0) := by
  have hg1 : routes.getD v1 [] = routes[v1] := by
    rw [List.getD_eq_getElem?_getD, List.getElem?_eq_getElem h1]
    rfl
  have hg2 : routes.getD v2 [] = routes[v2] := by
    rw [List.getD_eq_getElem?_getD, List.getElem?_eq_getElem h2]
    rfl
  have hl1 : 3 ≤ (routes.getD v1 []).length := by
    rw [hg1]; exact hall _ (List.getElem_mem h1)
  have hl2 : 3 ≤ (routes.getD v2 []).length := by
    rw [hg2]; exact hall _ (List.getElem_mem h2)
  have hne1 : (routes.getD v1 []).isEmpty = false := by
    rw [List.isEmpty_eq_false]
    intro hx
    rw [hx] at hl1
    exact absurd hl1 (by simp)
  have hne2 : (routes.getD v2 []).isEmpty = false := by
    rw [List.isEmpty_eq_false]
    intro hx
    rw [hx] at hl2
    exact absurd hl2 (by simp)
  set r1 := routes.getD v1 [] with hr1
  set r2 := routes.getD v2 [] with hr2
  set n1 := r1.set i (r2.getD j 0) with hn1
  set n2 := r2.set j (r1.getD i 0) with hn2
  set new := (routes.set v1 n1).set v2 n2 with hnew
  have hgen : generate_new_solution routes v1 v2 i j = some new := by
    unfold generate_new_solution
    rw [if_neg (by rw [← hr1, ← hr2, hne1, hne2, Bool.or_self]; exact Bool.false_ne_true)]
    rw [if_neg (by rw [← hr1, ← hr2]; simp only [Bool.or_eq_true, decide_eq_true_eq]; push_neg; exact ⟨by omega, by omega⟩)]
  have hv1lt : v1 < (routes.set v1 n1).length := by rw [List.length_set]; exact h1
  have hnew_at_v1 : new.getD v1 [] = n1 := by
    rw [hnew, List.getD_eq_getElem?_getD, List.getElem?_set_ne (Ne.symm hv),
      List.getElem?_set_self h1]
    rfl
  have hnew_at_v2 : new.getD v2 [] = n2 := by
    rw [hnew, List.getD_eq_getElem?_getD,
      List.getElem?_set_self (by rw [List.length_set]; exact h2)]
    rfl
  have hi0 : i ≠ 0 := by omega
  have hj0 : j ≠ 0 := by omega
  have hilast : i ≠ r1.length - 1 := by omega
  have hjlast : j ≠ r2.length - 1 := by omega
  refine ⟨new, hgen, ?_, ?_, ?_, ?_, ?_, ?_, ?_, ?_⟩
  · rw [hnew, List.length_set, List.length_set]
  · intro k hk1 hk2
    rw [hnew, List.getD_eq_getElem?_getD, List.getD_eq_getElem?_getD,
      List.getElem?_set_ne (Ne.symm hk2), List.getElem?_set_ne (Ne.symm hk1)]
  · rw [hnew_at_v1, hn1, List.head?_eq_getElem?, List.head?_eq_getElem?,
      List.getElem?_set_ne hi0]
  · rw [hnew_at_v1, hn1, List.getLast?_eq_getElem?, List.getLast?_eq_getElem?,
      List.length_set, List.getElem?_set_ne hilast]
  · rw [hnew_at_v2, hn2, List.head?_eq_getElem?, List.head?_eq_getElem?,
      List.getElem?_set_ne hj0]
  · rw [hnew_at_v2, hn2, List.getLast?_eq_getElem?, List.getLast?_eq_getElem?,
      List.length_set, List.getElem?_set_ne hjlast]
  · intro m hm
    rw [hnew_at_v1, hn1, List.getD_eq_getElem?_getD,
      List.getElem?_set_ne (Ne.symm hm), ← List.getD_eq_getElem?_getD]
  · intro m hm
    rw [hnew_at_v2, hn2, List.getD_eq_getElem?_getD,
      List.getElem?_set_ne (Ne.symm hm), ← List.getD_eq_getElem?_getD]

/-- Witness for C5 on the reference solution `exact_routes`, swapping the
interior positions `1` and `2` between the two routes. -/
theorem C5_depot_preservation_witness :
    ∃ new, generate_new_solution exact_routes 0 1 1 2 = some new ∧
      new.length = exact_routes.length ∧
      (∀ k, k ≠ 0 → k ≠ 1 → new.getD k [] = exact_routes.getD k []) ∧
      (new.getD 0 []).head? = (exact_routes.getD 0 []).head? ∧
      (new.getD 0 []).getLast? = (exact_routes.getD 0 []).getLast? ∧
      (new.getD 1 []).head? = (exact_routes.getD 1 []).head? ∧
      (new.getD 1 []).getLast? = (exact_routes.getD 1 []).getLast? ∧
      (∀ m, m ≠ 1 → (new.getD 0 []).getD m 0 = (exact_routes.getD 0 []).getD m 0) ∧
      (∀ m, m ≠ 2 → (new.getD 1 []).getD m 0 = (exact_routes.getD 1 []).getD m 0) :=
  C5_depot_preservation exact_routes 0 1 1 2 (by decide) (by decide) (by decide)
    (by decide) (by decide) (by decide) (by decide) (by decide)
